import Mathlib

/-! Finlumina/ServerTest: the two telephony webhook handlers.

A shallow embedding of `api/voice.js` (the call-entry handler) and
`api/process-recording.js` (the recording-processing handler).

* A JavaScript string is a list of characters (`Str`).
* A value that is a string or `undefined` is an `Option Str`.
* A handler writes one HTTP response: the status passed to `res.status`, the
  `Content-Type` passed to `res.setHeader` (if the handler set one) and the
  body passed to `res.send`.
* The outside world of the recording-processing handler (environment
  variables, the form decoder of the platform, the two `fetch` calls) is a
  `World`; an `await` that rejects and a call that throws are `Except.error`.
  Every awaited promise is taken to settle; console output is not modelled.
-/

set_option autoImplicit false

namespace ServerTest

/-! ## JavaScript values -/

/-- A JavaScript string. -/
abbrev Str := List Char

/-- The double-quote character. -/
def dq : Char := Char.ofNat 34

/-- Truthiness of a string-or-undefined value: `undefined` and `""` are falsy. -/
def truthyStr : Option Str → Bool
  | none => false
  | some s => !s.isEmpty

/-- The value of `a || b` where both sides are string-or-undefined. -/
def orElse (a b : Option Str) : Option Str :=
  if truthyStr a then a else b

/-- The value of `a || d` where `d` is a string literal: always a string. -/
def orDefault (a : Option Str) (d : Str) : Str :=
  match a with
  | some s => if s.isEmpty then d else s
  | none => d

/-- Interpolation of a string-or-undefined value in a template literal. -/
def interpolate : Option Str → Str
  | none => "undefined".toList
  | some s => s

/-- The array `s.split(sep)` for a one-character separator; never empty. -/
def split (sep : Char) : Str → List Str
  | [] => [[]]
  | c :: cs =>
    if c = sep then [] :: split sep cs
    else
      match split sep cs with
      | [] => [[c]]
      | p :: ps => (c :: p) :: ps

/-- The test `s.endsWith(suffix)`. -/
def endsWith (s suffix : Str) : Bool :=
  suffix.isSuffixOf s

/-- The result of `s.replace(/c/g, r)` for a pattern that is the single
literal character `c` and a replacement `r` without `$`. -/
def replaceAll (c : Char) (r : Str) (s : Str) : Str :=
  s.flatMap (fun x => if x = c then r else [x])

/-! ## The HTTP response written by a handler -/

/-- What a handler wrote to `res`. -/
structure Response where
  /-- The argument of `res.status`. -/
  status : Nat
  /-- The `Content-Type` given to `res.setHeader`, if the handler set one. -/
  contentType : Option Str
  /-- The argument of `res.send`. -/
  body : Str
  deriving DecidableEq, Repr

/-! ## `api/voice.js` -/

/-- The request headers read by the entry handler. -/
structure Headers where
  /-- The header `x-forwarded-host`. -/
  xForwardedHost : Option Str
  /-- The header `host`. -/
  host : Option Str
  /-- The header `x-forwarded-proto`. -/
  xForwardedProto : Option Str
  deriving DecidableEq, Repr

/-- The request seen by the entry handler. -/
structure VoiceReq where
  /-- The HTTP method, `req.method`. -/
  method : Str
  /-- The headers, `req.headers`. -/
  headers : Headers
  deriving DecidableEq, Repr

/-- The constant `host` of `voice.js`. -/
def host (h : Headers) : Option Str :=
  orElse h.xForwardedHost h.host

/-- The constant `proto` of `voice.js`: element 0 of the split header. -/
def proto (h : Headers) : Option Str :=
  (split ',' (orDefault h.xForwardedProto "https".toList))[0]?

/-- The constant `actionUrl` of `voice.js`. -/
def actionUrl (h : Headers) : Str :=
  interpolate (proto h) ++ "://".toList ++ interpolate (host h)
    ++ "/api/process-recording".toList

/-- The text of the `Record` element from its opening up to the quote that
opens the `action` value. -/
def recordOpen : Str :=
  "<Record action=\"".toList

/-- The text of the `Record` element after the interpolated `action` value. -/
def recordClose : Str :=
  "\" method=\"POST\" maxLength=\"120\" playBeep=\"true\" finishOnKey=\"*\" />".toList

/-- The part of the entry document before the `Record` element. -/
def voiceHead : Str :=
  "<?xml version=\"1.0\" encoding=\"UTF-8\"?>\n<Response>\n  <Say voice=\"alice\">Assalamualaikum. This call may be answered by an AI assistant and recorded for order processing. Please speak after the beep. Press star to finish.</Say>\n  ".toList

/-- The part of the entry document after the `Record` element. -/
def voiceTail : Str :=
  "\n  <Say voice=\"alice\">We did not receive a recording. Goodbye.</Say>\n</Response>".toList

/-- The template literal `twiml` of `voice.js`. -/
def voiceTwiml (url : Str) : Str :=
  voiceHead ++ recordOpen ++ url ++ recordClose ++ voiceTail

/-- The handler exported by `api/voice.js`. -/
def voice (req : VoiceReq) : Response :=
  if req.method ≠ "POST".toList ∧ req.method ≠ "GET".toList then
    { status := 405, contentType := none, body := "Method not allowed".toList }
  else
    { status := 200, contentType := some "text/xml".toList,
      body := voiceTwiml (actionUrl req.headers) }

/-! ## `api/process-recording.js` -/

/-- A value thrown by a call or carried by a rejected promise. -/
inductive JSError where
  /-- A `TypeError`, as for a method call on a value that has no such method. -/
  | typeError
  /-- Any other failure: a network error, a malformed response, a bad body. -/
  | failure
  deriving DecidableEq, Repr

/-- A property value of a parsed body or of a parsed JSON object. Numbers are
the integer-valued ones; `object` is any array or object. -/
inductive JSVal where
  | undefined
  | null
  | bool (b : Bool)
  | num (n : Int)
  | str (s : Str)
  | object
  deriving DecidableEq, Repr

/-- JavaScript truthiness. -/
def JSVal.truthy : JSVal → Bool
  | .undefined => false
  | .null => false
  | .bool b => b
  | .num n => n != 0
  | .str s => !s.isEmpty
  | .object => true

/-- A plain object: its own properties, the first binding of a key counts. -/
abbrev Obj := List (Str × JSVal)

/-- The property read `o.key` (or `o[key]`) on a plain object, for a key that
`Object.prototype` does not define. -/
def getProp (o : Obj) (key : Str) : JSVal :=
  match o.lookup key with
  | some v => v
  | none => .undefined

/-- The assignment `body[k] = v` of a string `v`: the setter of `__proto__`
ignores a string, any other key becomes (or replaces) an own property. -/
def setProp (o : Obj) (k : Str) (v : Str) : Obj :=
  if k = "__proto__".toList then o
  else (k, JSVal.str v) :: o.filter (fun p => p.1 != k)

/-- The value returned by `JSON.parse`, as far as a property read sees it. -/
inductive JsonDoc where
  /-- The document `null`: reading a property of it throws. -/
  | null
  /-- An object. -/
  | object (o : Obj)
  /-- A number, string, boolean or array: it has no property `text`. -/
  | other
  deriving DecidableEq, Repr

/-- The property read `openaiJson.text`. -/
def JsonDoc.text : JsonDoc → Except JSError JSVal
  | .null => .error .typeError
  | .object o => .ok (getProp o "text".toList)
  | .other => .ok .undefined

/-- What the handler reads of the object a `fetch` resolves to. -/
structure FetchResp where
  /-- The property `status`. -/
  status : Nat
  /-- The outcome of `await resp.text()`. -/
  text : Except JSError Str
  /-- The outcome of `await resp.arrayBuffer()`, as bytes. -/
  arrayBuffer : Except JSError (List Nat)
  /-- The value of `resp.headers.get("content-type")`; `null` is `none`. -/
  contentType : Option Str
  /-- The outcome of `await resp.json()`. -/
  json : Except JSError JsonDoc

/-- The property `resp.ok`: the status is in the range 200 to 299. -/
def FetchResp.ok (r : FetchResp) : Bool :=
  decide (200 ≤ r.status ∧ r.status ≤ 299)

/-- The environment variables read by the handler. -/
structure Env where
  /-- The variable `TWILIO_ACCOUNT_SID`. -/
  twilioAccountSid : Option Str
  /-- The variable `TWILIO_AUTH_TOKEN`. -/
  twilioAuthToken : Option Str
  /-- The variable `OPENAI_API_KEY`. -/
  openaiApiKey : Option Str
  deriving DecidableEq, Repr

/-- The multipart form posted to the transcription service. -/
structure TranscriptionForm where
  /-- The bytes of the blob in field `file`. -/
  file : List Nat
  /-- The constant `fileType`, passed as the `type` option of `new Blob`. -/
  fileType : Str
  /-- The file name given for field `file`. -/
  filename : Str
  /-- The field `model`. -/
  model : Str
  deriving DecidableEq, Repr

/-- An outbound request issued by the handler. -/
inductive Outbound where
  /-- The call `fetch(audioUrl, ...)` with its `Authorization` header, if any. -/
  | getRecording (url : Str) (authorization : Option Str)
  /-- The call `fetch("https://api.openai.com/v1/audio/transcriptions", ...)`. -/
  | postTranscription (authorization : Str) (form : TranscriptionForm)
  deriving DecidableEq, Repr

/-- The callback request as the handler reads it. -/
structure CallbackReq where
  /-- The outcome of reading `req.body`: `undefined` (`none`) or an object. -/
  body : Except JSError (Option Obj)
  /-- The outcome of draining the request stream: the data, or an error. -/
  raw : Except JSError Str

/-- Everything outside the handler. -/
structure World where
  /-- The content of `process.env`. -/
  env : Env
  /-- The pairs that iterating `new URLSearchParams(raw)` yields, in order. -/
  urlSearchParams : Str → List (Str × Str)
  /-- The outcome of the `fetch` of the recording, per URL and header. -/
  fetchRecording : Str → Option Str → Except JSError FetchResp
  /-- The outcome of the `fetch` of the transcription, per header and form. -/
  fetchTranscription : Str → TranscriptionForm → Except JSError FetchResp

/-- The bytes of `Buffer.from(s)`: the UTF-8 encoding of one character. -/
def utf8EncodeChar (c : Char) : List Nat :=
  let n := c.toNat
  if n < 0x80 then [n]
  else if n < 0x800 then [0xC0 + n / 64, 0x80 + n % 64]
  else if n < 0x10000 then [0xE0 + n / 4096, 0x80 + (n / 64) % 64, 0x80 + n % 64]
  else [0xF0 + n / 262144, 0x80 + (n / 4096) % 64, 0x80 + (n / 64) % 64, 0x80 + n % 64]

/-- The bytes of `Buffer.from(s)`. -/
def utf8Encode (s : Str) : List Nat :=
  s.flatMap utf8EncodeChar

/-- The base64 alphabet. -/
def base64Alphabet : Str :=
  "ABCDEFGHIJKLMNOPQRSTUVWXYZabcdefghijklmnopqrstuvwxyz0123456789+/".toList

/-- The base64 digit of a six-bit value. -/
def base64Digit (n : Nat) : Char :=
  base64Alphabet.getD n '='

/-- The string `buf.toString("base64")` of a list of bytes. -/
def base64 : List Nat → Str
  | a :: b :: c :: rest =>
    base64Digit (a / 4) :: base64Digit (a % 4 * 16 + b / 16)
      :: base64Digit (b % 16 * 4 + c / 64) :: base64Digit (c % 64) :: base64 rest
  | [a, b] =>
    [base64Digit (a / 4), base64Digit (a % 4 * 16 + b / 16), base64Digit (b % 16 * 4), '=']
  | [a] => [base64Digit (a / 4), base64Digit (a % 4 * 16), '=', '=']
  | [] => []

/-- A response with status 200 and `Content-Type: text/xml`. -/
def xmlResponse (twiml : Str) : Response :=
  { status := 200, contentType := some "text/xml".toList, body := twiml }

/-- The one-line document with a plain `Say`. -/
def sayDoc (message : Str) : Str :=
  "<?xml version=\"1.0\" encoding=\"UTF-8\"?><Response><Say>".toList ++ message
    ++ "</Say></Response>".toList

/-- The document sent when the body has no recording location. -/
def notFoundDoc : Str := sayDoc "Recording not found. Please try again.".toList

/-- The document sent when the recording fetch is not successful. -/
def fetchFailedDoc : Str := sayDoc "Sorry, could not fetch the recording.".toList

/-- The document sent when the transcription is not successful. -/
def transcriptionFailedDoc : Str := sayDoc "Sorry, transcription failed.".toList

/-- The document sent by the `catch` block. -/
def wentWrongDoc : Str := sayDoc "Something went wrong. Please try again later.".toList

/-- The text before the interpolated `safeText` in the final document. -/
def replyHead : Str :=
  "<?xml version=\"1.0\" encoding=\"UTF-8\"?>\n<Response>\n  <Say voice=\"alice\">".toList

/-- The text after the spoken line in the final document. -/
def replyTail : Str :=
  "</Say>\n</Response>".toList

/-- The spoken line of the final document. -/
def replyLine (safeText : Str) : Str :=
  "Thank you. I heard: ".toList ++ safeText
    ++ ". Your order has been recorded. Goodbye.".toList

/-- The final template literal `twiml` of `process-recording.js`. -/
def replyDoc (safeText : Str) : Str :=
  replyHead ++ replyLine safeText ++ replyTail

/-- The constant `safeText`: three global replacements in sequence. -/
def safeText (transcription : Str) : Str :=
  replaceAll '>' [] (replaceAll '<' [] (replaceAll '&' " and ".toList transcription))

/-- The constant `audioUrl`. -/
def audioUrl (recordingUrl : Str) : Str :=
  if endsWith recordingUrl ".wav".toList then recordingUrl
  else recordingUrl ++ ".wav".toList

/-- The constant `authHeader`; `undefined` is `none`. -/
def authHeader (env : Env) : Option Str :=
  let sid := orDefault env.twilioAccountSid []
  let token := orDefault env.twilioAuthToken []
  if !sid.isEmpty && !token.isEmpty then
    some ("Basic ".toList ++ base64 (utf8Encode (sid ++ ":".toList ++ token)))
  else none

/-- The `Authorization` header of the recording fetch: the object
`authHeader ? { Authorization: authHeader } : {}`. -/
def recordingAuthorization (env : Env) : Option Str :=
  if truthyStr (authHeader env) then authHeader env else none

/-- Step 1 of the handler: the variable `body` after the parsing block. -/
def acquireBody (w : World) (req : CallbackReq) : Except JSError Obj :=
  match req.body with
  | .error e => .error e
  | .ok reqBody =>
    let body : Obj := reqBody.getD []
    if body.isEmpty then
      match req.raw with
      | .error e => .error e
      | .ok raw =>
        if !raw.isEmpty then
          .ok ((w.urlSearchParams raw).foldl (fun b kv => setProp b kv.1 kv.2) [])
        else .ok body
    else .ok body

/-- The bearer header of the transcription request; an unset key is
interpolated as `undefined`. -/
def bearerHeader (env : Env) : Str :=
  "Bearer ".toList ++ interpolate env.openaiApiKey

/-- The form built in step 3 from the fetched recording. -/
def transcriptionForm (bytes : List Nat) (contentType : Option Str) : TranscriptionForm :=
  { file := bytes, fileType := orDefault contentType "audio/wav".toList,
    filename := "recording.wav".toList, model := "whisper-1".toList }

/-- The constant `transcription`: `openaiJson.text || "Sorry, ..."`. -/
def transcription (text : JSVal) : JSVal :=
  if text.truthy then text
  else .str "Sorry, I could not transcribe your message.".toList

/-- Lines 82 to 100: read the JSON, sanitize the text, send the reply. A
truthy `text` that is not a string has no method `replace`. -/
def replyStep (openaiResp : FetchResp) : Except JSError Response :=
  match openaiResp.json with
  | .error e => .error e
  | .ok openaiJson =>
    match openaiJson.text with
    | .error e => .error e
    | .ok text =>
      match transcription text with
      | .str transcription => .ok (xmlResponse (replyDoc (safeText transcription)))
      | _ => .error .typeError

/-- Lines 74 to 100: the branch on `openaiResp.ok`. -/
def transcriptionStep (openaiResp : FetchResp) : Except JSError Response :=
  if !openaiResp.ok then
    match openaiResp.text with
    | .error e => .error e
    | .ok _ => .ok (xmlResponse transcriptionFailedDoc)
  else replyStep openaiResp

/-- Lines 47 to 100: the branch on `audioResp.ok`, then the transcription. The
first component lists the requests issued from here on. -/
def recordingStep (w : World) (audioResp : FetchResp) :
    List Outbound × Except JSError Response :=
  if !audioResp.ok then
    match audioResp.text with
    | .error e => ([], .error e)
    | .ok _ => ([], .ok (xmlResponse fetchFailedDoc))
  else
    match audioResp.arrayBuffer with
    | .error e => ([], .error e)
    | .ok arrayBuffer =>
      let form := transcriptionForm arrayBuffer audioResp.contentType
      let authorization := bearerHeader w.env
      match w.fetchTranscription authorization form with
      | .error e => ([.postTranscription authorization form], .error e)
      | .ok openaiResp =>
        ([.postTranscription authorization form], transcriptionStep openaiResp)

/-- Lines 36 to 100 for a string `recordingUrl`. -/
def fetchStep (w : World) (recordingUrl : Str) :
    List Outbound × Except JSError Response :=
  let url := audioUrl recordingUrl
  let authorization := recordingAuthorization w.env
  match w.fetchRecording url authorization with
  | .error e => ([.getRecording url authorization], .error e)
  | .ok audioResp =>
    let rest := recordingStep w audioResp
    (.getRecording url authorization :: rest.1, rest.2)

/-- The `try` block of the handler: the requests it issued, in order, and
either the response it sent or the value it threw. A truthy `RecordingUrl`
that is not a string has no method `endsWith`. -/
def tryBlock (w : World) (req : CallbackReq) :
    List Outbound × Except JSError Response :=
  match acquireBody w req with
  | .error e => ([], .error e)
  | .ok body =>
    let recordingUrl := getProp body "RecordingUrl".toList
    if !recordingUrl.truthy then ([], .ok (xmlResponse notFoundDoc))
    else
      match recordingUrl with
      | .str u => fetchStep w u
      | _ => ([], .error .typeError)

/-- The handler exported by `api/process-recording.js`: the `try` block with
its `catch`. The result is the list of requests issued and the outcome seen by
the caller of the handler: a response, or a failure that escaped. -/
def processRecording (w : World) (req : CallbackReq) :
    List Outbound × Except JSError Response :=
  match tryBlock w req with
  | (calls, .ok response) => (calls, .ok response)
  | (calls, .error _) => (calls, .ok (xmlResponse wentWrongDoc))

/-! ## Notions used to state the properties -/

/-- The replacement the specification gives for one character of the text:
an ampersand becomes the word " and ", an angle bracket is dropped, any other
character stays. -/
def sanitizeChar (c : Char) : Str :=
  if c = '&' then " and ".toList
  else if c = '<' ∨ c = '>' then []
  else [c]

/-- The sanitized text as the specification words it: every character
replaced on its own, in one pass. -/
def sanitizeSpec (text : Str) : Str :=
  text.flatMap sanitizeChar

/-- The value an XML reader gives the attribute that opens with `opening`
(the attribute name, the equals sign and the opening quote included): the
text from the end of the first occurrence of `opening` up to the next double
quote. -/
def attributeValue (opening : Str) : Str → Option Str
  | [] => none
  | c :: cs =>
    if opening.isPrefixOf (c :: cs) then
      some (((c :: cs).drop opening.length).takeWhile (fun x => x != dq))
    else attributeValue opening cs

/-- A world for examples: the given environment, form pairs and responses,
whatever is requested. -/
def constWorld (env : Env) (pairs : List (Str × Str))
    (recording transcription : Except JSError FetchResp) : World :=
  { env := env, urlSearchParams := fun _ => pairs,
    fetchRecording := fun _ _ => recording,
    fetchTranscription := fun _ _ => transcription }

/-- A response with the given status whose body reads as `text` and parses
as `json`. -/
def plainResp (status : Nat) (text : Str) (json : Except JSError JsonDoc) : FetchResp :=
  { status := status, text := .ok text, arrayBuffer := .ok (utf8Encode text),
    contentType := none, json := json }

/-- The first entry of a comma-separated list: the part before the first comma. -/
def firstEntry (s : Str) : Str :=
  s.takeWhile (fun c => c != ',')

/-- The protocol of the callback URL, in words: the first entry of
`x-forwarded-proto` when that header is present and not empty, and
`https` otherwise. -/
def protoSpec (h : Headers) : Str :=
  match h.xForwardedProto with
  | some (c :: cs) => firstEntry (c :: cs)
  | _ => "https".toList

/-- The host of the callback URL, in words: `x-forwarded-host` when that
header is present and not empty, otherwise the `host` header, which reads
`undefined` when it is absent. -/
def hostSpec (h : Headers) : Str :=
  match h.xForwardedHost with
  | some (c :: cs) => c :: cs
  | _ => interpolate h.host

/-- The protocol that the rule "the first entry of the header when the header
is present" gives: an empty header counts as present. -/
def protoWhenPresent (h : Headers) : Str :=
  match h.xForwardedProto with
  | some p => firstEntry p
  | none => "https".toList

/-- The host that the rule "`x-forwarded-host` when present" gives: an empty
header counts as present. -/
def hostWhenPresent (h : Headers) : Str :=
  match h.xForwardedHost with
  | some x => x
  | none => interpolate h.host

/-- The callback URL built from a protocol and a host. -/
def callbackUrl (proto host : Str) : Str :=
  proto ++ "://".toList ++ host ++ "/api/process-recording".toList

/-- A `text` field that is absent (`none`) or a string, as a property value. -/
def fieldValue : Option Str → JSVal
  | none => .undefined
  | some t => .str t

/-- The text spoken back, in words: the `text` field, or the fixed sentence
when the field is absent or empty. -/
def heardSpec : Option Str → Str
  | some (c :: cs) => c :: cs
  | _ => "Sorry, I could not transcribe your message.".toList

/-- An example environment with both recording credentials and an API key. -/
def exampleEnv : Env :=
  { twilioAccountSid := some "AC1".toList, twilioAuthToken := some "tok".toList,
    openaiApiKey := some "sk-test".toList }

/-- An example world: the form decodes to the given pairs, the recording is
served with status 200, and the transcription service answers with the given
status and JSON document. -/
def exampleWorld (pairs : List (Str × Str)) (status : Nat) (json : JsonDoc) : World :=
  constWorld exampleEnv pairs
    (.ok (plainResp 200 "RIFF".toList (.error .failure)))
    (.ok (plainResp status "response body".toList (.ok json)))

/-- An example request: no parsed body, a raw form body. -/
def exampleReq : CallbackReq :=
  { body := .ok none, raw := .ok "RecordingUrl=https%3A%2F%2Fapi.example%2FRE1".toList }

/-- A response with the given status whose body cannot be read: `text`,
`arrayBuffer` and `json` all reject. -/
def unreadableResp (status : Nat) : FetchResp :=
  { status := status, text := .error .failure, arrayBuffer := .error .failure,
    contentType := none, json := .error .failure }

/-- The pairs the example form body decodes to. -/
def examplePairs : List (Str × Str) :=
  [("RecordingUrl".toList, "https://api.example/RE1".toList)]

/-! ## Lemmas on the string operations -/

theorem split_head (sep : Char) (s : Str) :
    ∃ rest, split sep s = s.takeWhile (fun c => c != sep) :: rest := by
  induction s with
  | nil => exact ⟨[], rfl⟩
  | cons c cs ih =>
    obtain ⟨rest, hrest⟩ := ih
    by_cases hc : c = sep
    · exact ⟨split sep cs, by simp [split, hc]⟩
    · exact ⟨rest, by simp [split, hc, hrest]⟩

theorem proto_eq_spec (h : Headers) : proto h = some (protoSpec h) := by
  obtain ⟨rest, hrest⟩ := split_head ',' (orDefault h.xForwardedProto "https".toList)
  unfold proto
  rw [hrest]
  rcases h with ⟨xfh, hostHeader, xfp⟩
  rcases xfp with _ | _ | ⟨c, cs⟩
  · simp [orDefault, protoSpec]
  · simp [orDefault, protoSpec]
  · simp [orDefault, protoSpec, firstEntry]

theorem host_eq_spec (h : Headers) : interpolate (host h) = hostSpec h := by
  rcases h with ⟨xfh, hostHeader, xfp⟩
  rcases xfh with _ | _ | ⟨c, cs⟩ <;> simp [host, orElse, truthyStr, hostSpec, interpolate]

theorem actionUrl_eq (h : Headers) :
    actionUrl h = callbackUrl (protoSpec h) (hostSpec h) := by
  unfold actionUrl callbackUrl
  rw [proto_eq_spec, host_eq_spec]
  rfl

/-! ## The entry handler -/

/-- C2: the entry handler answers 405 with the plain text "Method not allowed"
and sets no content type exactly when the method is neither GET nor POST, and
it answers 200 exactly when the method is GET or POST. -/
theorem voice_method_not_allowed_iff (req : VoiceReq) :
    (((voice req).status = 405 ∧ (voice req).body = "Method not allowed".toList
        ∧ (voice req).contentType = none)
      ↔ (req.method ≠ "GET".toList ∧ req.method ≠ "POST".toList))
    ∧ ((voice req).status = 200
      ↔ (req.method = "GET".toList ∨ req.method = "POST".toList)) := by
  unfold voice
  by_cases h : req.method ≠ "POST".toList ∧ req.method ≠ "GET".toList
  · rw [if_pos h]
    exact ⟨⟨fun _ => ⟨h.2, h.1⟩, fun _ => ⟨rfl, rfl, rfl⟩⟩,
      ⟨fun h200 => absurd h200 (by decide), fun hm => by
        rcases hm with hm | hm
        · exact absurd hm h.2
        · exact absurd hm h.1⟩⟩
  · rw [if_neg h]
    refine ⟨⟨fun h405 => absurd h405.1 (by simp), fun hm => absurd ⟨hm.2, hm.1⟩ h⟩,
      ⟨fun _ => ?_, fun _ => rfl⟩⟩
    by_cases hg : req.method = "GET".toList
    · exact Or.inl hg
    · by_cases hp : req.method = "POST".toList
      · exact Or.inr hp
      · exact absurd ⟨hp, hg⟩ h

/-- C3, as stated, fails: for a GET request whose `x-forwarded-proto` header
is present but empty and whose `host` is `example.com`, the rule "the part
before the first comma when the header is present" gives the protocol `""`,
while the handler falls back to `https`. -/
theorem voice_record_empty_proto_header :
    (voice ⟨"GET".toList, ⟨none, some "example.com".toList, some []⟩⟩).body
        = voiceTwiml "https://example.com/api/process-recording".toList
      ∧ callbackUrl
          (protoWhenPresent ⟨none, some "example.com".toList, some []⟩)
          (hostWhenPresent ⟨none, some "example.com".toList, some []⟩)
        = "://example.com/api/process-recording".toList
      ∧ (voice ⟨"GET".toList, ⟨none, some "example.com".toList, some []⟩⟩).body
        ≠ voiceTwiml (callbackUrl
            (protoWhenPresent ⟨none, some "example.com".toList, some []⟩)
            (hostWhenPresent ⟨none, some "example.com".toList, some []⟩)) := by
  set_option maxRecDepth 100000 in decide

/-- C3, amended: for every GET or POST request the response has content type
`text/xml` and its body is the fixed document whose `Record` element reads
`action="P://H/api/process-recording" method="POST" maxLength="120"
playBeep="true" finishOnKey="*"`, where `H` is `x-forwarded-host` when
present and not empty and otherwise the `host` header (the text `undefined`
when that is absent), and `P` is the part of `x-forwarded-proto` before its
first comma when that header is present and not empty and otherwise `https`. -/
theorem voice_record_element (req : VoiceReq)
    (hm : req.method = "GET".toList ∨ req.method = "POST".toList) :
    (voice req).contentType = some "text/xml".toList
      ∧ (voice req).body
        = voiceHead
          ++ ("<Record action=\"".toList
            ++ (protoSpec req.headers ++ "://".toList ++ hostSpec req.headers
              ++ "/api/process-recording".toList)
            ++ "\" method=\"POST\" maxLength=\"120\" playBeep=\"true\" finishOnKey=\"*\" />".toList)
          ++ voiceTail := by
  have hne : ¬ (req.method ≠ "POST".toList ∧ req.method ≠ "GET".toList) := by
    rcases hm with h | h <;> simp [h]
  simp only [voice, hne, if_false, actionUrl_eq, voiceTwiml, callbackUrl, recordOpen,
    recordClose, List.append_assoc, true_and]

/-- Witness for `voice_record_element`: a POST request with a protocol list. -/
theorem voice_record_element_witness :
    (voice ⟨"POST".toList,
        ⟨some "shop.example".toList, some "internal".toList, some "http,https".toList⟩⟩).contentType
        = some "text/xml".toList
      ∧ (voice ⟨"POST".toList,
          ⟨some "shop.example".toList, some "internal".toList, some "http,https".toList⟩⟩).body
        = voiceHead
          ++ ("<Record action=\"".toList
            ++ ("http".toList ++ "://".toList ++ "shop.example".toList
              ++ "/api/process-recording".toList)
            ++ "\" method=\"POST\" maxLength=\"120\" playBeep=\"true\" finishOnKey=\"*\" />".toList)
          ++ voiceTail :=
  voice_record_element
    ⟨"POST".toList, ⟨some "shop.example".toList, some "internal".toList, some "http,https".toList⟩⟩
    (Or.inr rfl)

theorem isPrefixOf_append_of_length_le (opening a tail : Str)
    (h : opening.length ≤ a.length) :
    opening.isPrefixOf (a ++ tail) = opening.isPrefixOf a := by
  induction opening generalizing a with
  | nil => simp [List.isPrefixOf]
  | cons x xs ih =>
    cases a with
    | nil => simp at h
    | cons y ys =>
      have hlen : xs.length ≤ ys.length := by simpa using h
      simp [List.isPrefixOf, ih ys hlen]

theorem attributeValue_skip (opening pre rest : Str)
    (h : ∀ i, i < pre.length → opening.isPrefixOf (pre.drop i ++ rest) = false) :
    attributeValue opening (pre ++ rest) = attributeValue opening rest := by
  induction pre with
  | nil => rfl
  | cons c cs ih =>
    have h0 : opening.isPrefixOf (c :: (cs ++ rest)) = false := h 0 (by simp)
    have hstep : attributeValue opening (c :: (cs ++ rest))
        = attributeValue opening (cs ++ rest) := by
      simp [attributeValue, h0]
    rw [List.cons_append, hstep]
    exact ih (fun i hi => h (i + 1) (by simpa using hi))

/-- When the URL holds no double quote, the `action` attribute of the entry
document reads back as the whole URL. -/
theorem attributeValue_voiceTwiml (url : Str) (h : dq ∉ url) :
    attributeValue recordOpen (voiceTwiml url) = some url := by
  have hscan : ∀ i, i < voiceHead.length →
      recordOpen.isPrefixOf (voiceHead.drop i ++ recordOpen) = false := by
    set_option maxRecDepth 100000 in decide
  have hhead : attributeValue recordOpen
      (voiceHead ++ (recordOpen ++ (url ++ (recordClose ++ voiceTail))))
        = attributeValue recordOpen (recordOpen ++ (url ++ (recordClose ++ voiceTail))) := by
    apply attributeValue_skip
    intro i hi
    rw [← List.append_assoc, isPrefixOf_append_of_length_le]
    · exact hscan i hi
    · simp
  unfold voiceTwiml
  rw [List.append_assoc, List.append_assoc, List.append_assoc, hhead]
  have hopen : attributeValue recordOpen (recordOpen ++ (url ++ (recordClose ++ voiceTail)))
      = some ((url ++ (recordClose ++ voiceTail)).takeWhile (fun x => x != dq)) := by
    simp [recordOpen, attributeValue, List.isPrefixOf]
  rw [hopen, List.takeWhile_append_of_pos]
  · simp [recordClose, dq]
  · intro a ha
    have : a ≠ dq := fun e => h (e ▸ ha)
    simpa using this

/-- C10 fails on the code: for a GET request whose `x-forwarded-host` header
is `x"/><Hangup/><Record action="y`, the derived callback URL contains the
whole header, but the value of the first `action` attribute of the document
ends at the quote inside the header (`https://x`), and the document carries
a `Hangup` element and a second `Record` element that come from the header. -/
theorem voice_host_header_injection :
    actionUrl ⟨some "x\"/><Hangup/><Record action=\"y".toList, some "example.com".toList, none⟩
        = "https://x\"/><Hangup/><Record action=\"y/api/process-recording".toList
      ∧ attributeValue "<Record action=\"".toList
          (voice ⟨"GET".toList,
            ⟨some "x\"/><Hangup/><Record action=\"y".toList, some "example.com".toList,
              none⟩⟩).body
        = some "https://x".toList
      ∧ (voice ⟨"GET".toList,
          ⟨some "x\"/><Hangup/><Record action=\"y".toList, some "example.com".toList,
            none⟩⟩).body
        = voiceHead
          ++ "<Record action=\"https://x\"/><Hangup/><Record action=\"y/api/process-recording\" method=\"POST\" maxLength=\"120\" playBeep=\"true\" finishOnKey=\"*\" />".toList
          ++ voiceTail := by
  set_option maxRecDepth 100000 in decide

/-! ## Lemmas on the recording-processing handler -/

theorem replaceAll_append (c : Char) (r a b : Str) :
    replaceAll c r (a ++ b) = replaceAll c r a ++ replaceAll c r b := by
  simp [replaceAll, List.flatMap_append]

theorem replaceAll_cons (c : Char) (r : Str) (x : Char) (s : Str) :
    replaceAll c r (x :: s) = (if x = c then r else [x]) ++ replaceAll c r s := by
  simp [replaceAll, List.flatMap_cons]

theorem safeText_eq_sanitizeSpec (t : Str) : safeText t = sanitizeSpec t := by
  induction t with
  | nil => rfl
  | cons x xs ih =>
    unfold safeText at ih ⊢
    rw [replaceAll_cons, replaceAll_append, replaceAll_append, ih]
    unfold sanitizeSpec
    rw [List.flatMap_cons]
    congr 1
    unfold sanitizeChar
    by_cases h1 : x = '&'
    · subst h1; decide
    · by_cases h2 : x = '<'
      · subst h2; decide
      · by_cases h3 : x = '>'
        · subst h3; decide
        · simp [h1, h2, h3, replaceAll]

theorem sanitizeChar_clean (c x : Char) (hx : x ∈ sanitizeChar c) :
    x ≠ '&' ∧ x ≠ '<' ∧ x ≠ '>' := by
  unfold sanitizeChar at hx
  by_cases h1 : c = '&'
  · rw [if_pos h1] at hx
    have : ∀ y ∈ " and ".toList, y ≠ '&' ∧ y ≠ '<' ∧ y ≠ '>' := by decide
    exact this x hx
  · rw [if_neg h1] at hx
    by_cases h2 : c = '<' ∨ c = '>'
    · rw [if_pos h2] at hx
      exact absurd hx (List.not_mem_nil x)
    · rw [if_neg h2] at hx
      have hxc : x = c := by simpa using hx
      subst hxc
      exact ⟨h1, fun h => h2 (Or.inl h), fun h => h2 (Or.inr h)⟩

theorem sanitizeSpec_clean (t : Str) (x : Char) (hx : x ∈ sanitizeSpec t) :
    x ≠ '&' ∧ x ≠ '<' ∧ x ≠ '>' := by
  unfold sanitizeSpec at hx
  obtain ⟨c, -, hc⟩ := List.mem_flatMap.mp hx
  exact sanitizeChar_clean c x hc

theorem endsWith_iff (s suffix : Str) : endsWith s suffix = true ↔ suffix <:+ s := by
  unfold endsWith
  exact List.isSuffixOf_iff_suffix

theorem audioUrl_endsWith (u : Str) : endsWith (audioUrl u) ".wav".toList = true := by
  unfold audioUrl
  by_cases h : endsWith u ".wav".toList = true
  · rw [if_pos h]; exact h
  · rw [if_neg h]
    exact (endsWith_iff _ _).mpr (List.suffix_append _ _)

theorem audioUrl_idem (u : Str) : audioUrl (audioUrl u) = audioUrl u := by
  have fixed : ∀ v : Str, endsWith v ".wav".toList = true → audioUrl v = v := by
    intro v hv
    unfold audioUrl
    rw [if_pos hv]
  exact fixed _ (audioUrl_endsWith u)

theorem audioUrl_no_double (u : Str)
    (h : endsWith (audioUrl u) ".wav.wav".toList = true) :
    endsWith u ".wav.wav".toList = true := by
  unfold audioUrl at h
  by_cases hw : endsWith u ".wav".toList = true
  · rw [if_pos hw] at h; exact h
  · rw [if_neg hw] at h
    exfalso
    apply hw
    obtain ⟨t, ht⟩ := (endsWith_iff _ _).mp h
    have h2 : (t ++ ".wav".toList) ++ ".wav".toList = u ++ ".wav".toList := by
      rw [← ht, List.append_assoc]; rfl
    have h3 := List.append_cancel_right h2
    exact (endsWith_iff _ _).mpr ⟨t, h3⟩

theorem processRecording_of_tryBlock_ok (w : World) (req : CallbackReq)
    (calls : List Outbound) (r : Response) (h : tryBlock w req = (calls, .ok r)) :
    processRecording w req = (calls, .ok r) := by
  unfold processRecording
  rw [h]

theorem tryBlock_of_recordingUrl (w : World) (req : CallbackReq) (body : Obj) (u : Str)
    (hb : acquireBody w req = .ok body)
    (hu : getProp body "RecordingUrl".toList = .str u) (hne : u ≠ []) :
    tryBlock w req = fetchStep w u := by
  unfold tryBlock
  rw [hb]
  simp only [hu]
  have : (JSVal.str u).truthy = true := by
    cases u with
    | nil => exact absurd rfl hne
    | cons c cs => rfl
  simp [this]

theorem processRecording_calls (w : World) (req : CallbackReq) :
    (processRecording w req).1 = (tryBlock w req).1 := by
  unfold processRecording
  rcases tryBlock w req with ⟨calls, r | r⟩ <;> rfl

theorem fetchStep_calls (w : World) (u : Str) :
    ∃ rest, (fetchStep w u).1
      = .getRecording (audioUrl u) (recordingAuthorization w.env) :: rest := by
  unfold fetchStep
  dsimp only
  split
  · exact ⟨[], rfl⟩
  · exact ⟨_, rfl⟩

theorem tryBlock_success (w : World) (req : CallbackReq) (body : Obj) (u : Str)
    (audioResp openaiResp : FetchResp) (bytes : List Nat)
    (hb : acquireBody w req = .ok body)
    (hu : getProp body "RecordingUrl".toList = .str u) (hne : u ≠ [])
    (hf : w.fetchRecording (audioUrl u) (recordingAuthorization w.env) = .ok audioResp)
    (hok : audioResp.ok = true) (hbuf : audioResp.arrayBuffer = .ok bytes)
    (ht : w.fetchTranscription (bearerHeader w.env)
      (transcriptionForm bytes audioResp.contentType) = .ok openaiResp) :
    tryBlock w req
      = ([.getRecording (audioUrl u) (recordingAuthorization w.env),
          .postTranscription (bearerHeader w.env)
            (transcriptionForm bytes audioResp.contentType)],
        transcriptionStep openaiResp) := by
  rw [tryBlock_of_recordingUrl w req body u hb hu hne]
  unfold fetchStep
  simp only [hf]
  unfold recordingStep
  simp only [hok, hbuf, ht]
  rfl

theorem replyStep_ok (openaiResp : FetchResp) (r : Response)
    (h : replyStep openaiResp = .ok r) :
    ∃ t, r = xmlResponse (replyDoc (safeText t)) := by
  unfold replyStep at h
  split at h
  · cases h
  · split at h
    · cases h
    · split at h
      · cases h; exact ⟨_, rfl⟩
      · cases h

theorem transcriptionStep_ok (openaiResp : FetchResp) (r : Response)
    (h : transcriptionStep openaiResp = .ok r) :
    r = xmlResponse transcriptionFailedDoc ∨ ∃ t, r = xmlResponse (replyDoc (safeText t)) := by
  unfold transcriptionStep at h
  split at h
  · split at h
    · cases h
    · cases h; exact Or.inl rfl
  · exact Or.inr (replyStep_ok openaiResp r h)

theorem recordingStep_ok (w : World) (audioResp : FetchResp) (r : Response)
    (h : (recordingStep w audioResp).2 = .ok r) :
    r = xmlResponse fetchFailedDoc ∨ r = xmlResponse transcriptionFailedDoc
      ∨ ∃ t, r = xmlResponse (replyDoc (safeText t)) := by
  unfold recordingStep at h
  split at h
  · split at h
    · cases h
    · cases h; exact Or.inl rfl
  · split at h
    · cases h
    · dsimp only at h
      split at h
      · cases h
      · exact Or.inr (transcriptionStep_ok _ r h)

theorem fetchStep_ok (w : World) (u : Str) (r : Response)
    (h : (fetchStep w u).2 = .ok r) :
    r = xmlResponse fetchFailedDoc ∨ r = xmlResponse transcriptionFailedDoc
      ∨ ∃ t, r = xmlResponse (replyDoc (safeText t)) := by
  unfold fetchStep at h
  dsimp only at h
  split at h
  · cases h
  · exact recordingStep_ok w _ r h

theorem tryBlock_ok (w : World) (req : CallbackReq) (r : Response)
    (h : (tryBlock w req).2 = .ok r) :
    r = xmlResponse notFoundDoc ∨ r = xmlResponse fetchFailedDoc
      ∨ r = xmlResponse transcriptionFailedDoc
      ∨ ∃ t, r = xmlResponse (replyDoc (safeText t)) := by
  unfold tryBlock at h
  split at h
  · cases h
  · dsimp only at h
    split at h
    · cases h; exact Or.inl rfl
    · split at h
      · exact Or.inr (fetchStep_ok w _ r h)
      · cases h

theorem processRecording_result (w : World) (req : CallbackReq) :
    ∃ r, (processRecording w req).2 = .ok r
      ∧ (r = xmlResponse notFoundDoc ∨ r = xmlResponse fetchFailedDoc
        ∨ r = xmlResponse transcriptionFailedDoc ∨ r = xmlResponse wentWrongDoc
        ∨ ∃ t, r = xmlResponse (replyDoc (safeText t))) := by
  unfold processRecording
  rcases hres : tryBlock w req with ⟨calls, e | r⟩
  · exact ⟨_, rfl, Or.inr (Or.inr (Or.inr (Or.inl rfl)))⟩
  · refine ⟨r, rfl, ?_⟩
    have h2 : (tryBlock w req).2 = .ok r := by rw [hres]
    rcases tryBlock_ok w req r h2 with h | h | h | h
    · exact Or.inl h
    · exact Or.inr (Or.inl h)
    · exact Or.inr (Or.inr (Or.inl h))
    · exact Or.inr (Or.inr (Or.inr (Or.inr h)))

theorem getRecording_mem (w : World) (req : CallbackReq) (url : Str) (auth : Option Str)
    (h : Outbound.getRecording url auth ∈ (processRecording w req).1) :
    auth = recordingAuthorization w.env := by
  rw [processRecording_calls] at h
  unfold tryBlock at h
  split at h
  · simp at h
  · dsimp only at h
    split at h
    · simp at h
    · split at h
      · unfold fetchStep at h
        dsimp only at h
        split at h
        · simp at h
          exact h.2
        · unfold recordingStep at h
          split at h
          · split at h <;> simp at h <;> exact h.2
          · split at h
            · simp at h; exact h.2
            · dsimp only at h
              split at h <;> simp at h <;> exact h.2
      · simp at h

theorem recordingAuthorization_eq (env : Env) :
    recordingAuthorization env
      = match env.twilioAccountSid, env.twilioAuthToken with
        | some (a :: sid), some (b :: tok) =>
          some ("Basic ".toList
            ++ base64 (utf8Encode ((a :: sid) ++ ":".toList ++ (b :: tok))))
        | _, _ => none := by
  rcases env with ⟨sid, tok, key⟩
  rcases sid with _ | _ | ⟨a, sid⟩ <;> rcases tok with _ | _ | ⟨b, tok⟩ <;>
    simp [recordingAuthorization, authHeader, orDefault, truthyStr]

theorem processRecording_success (w : World) (req : CallbackReq) (body : Obj) (u : Str)
    (audioResp openaiResp : FetchResp) (bytes : List Nat) (openaiJson : JsonDoc)
    (field : Option Str)
    (hb : acquireBody w req = .ok body)
    (hu : getProp body "RecordingUrl".toList = .str u) (hne : u ≠ [])
    (hf : w.fetchRecording (audioUrl u) (recordingAuthorization w.env) = .ok audioResp)
    (hok : audioResp.ok = true) (hbuf : audioResp.arrayBuffer = .ok bytes)
    (ht : w.fetchTranscription (bearerHeader w.env)
      (transcriptionForm bytes audioResp.contentType) = .ok openaiResp)
    (hok2 : openaiResp.ok = true) (hj : openaiResp.json = .ok openaiJson)
    (hfield : openaiJson.text = .ok (fieldValue field)) :
    (processRecording w req).2
      = .ok (xmlResponse (replyDoc (sanitizeSpec (heardSpec field)))) := by
  have hstep : transcriptionStep openaiResp
      = .ok (xmlResponse (replyDoc (sanitizeSpec (heardSpec field)))) := by
    unfold transcriptionStep replyStep
    simp only [hok2, hj, hfield]
    rcases field with _ | _ | ⟨c, cs⟩ <;>
      simp [fieldValue, transcription, JSVal.truthy, heardSpec, safeText_eq_sanitizeSpec]
  have htry := tryBlock_success w req body u audioResp openaiResp bytes hb hu hne hf hok hbuf ht
  rw [hstep] at htry
  rw [processRecording_of_tryBlock_ok w req _ _ htry]

/-! ## The recording-processing handler -/

/-- C1: whatever the request and whatever the outcome of every external call,
the handler returns a response (no failure escapes), with status 200 and
content type `text/xml`, whose body is one of the four fixed fallback
documents or the reply document carrying a sanitized text. -/
theorem processRecording_always_responds (w : World) (req : CallbackReq) :
    ∃ r, (processRecording w req).2 = .ok r
      ∧ r.status = 200 ∧ r.contentType = some "text/xml".toList
      ∧ (r.body = sayDoc "Recording not found. Please try again.".toList
        ∨ r.body = sayDoc "Sorry, could not fetch the recording.".toList
        ∨ r.body = sayDoc "Sorry, transcription failed.".toList
        ∨ r.body = sayDoc "Something went wrong. Please try again later.".toList
        ∨ ∃ t, r.body = replyDoc (sanitizeSpec t)) := by
  obtain ⟨r, hr, hshape⟩ := processRecording_result w req
  refine ⟨r, hr, ?_⟩
  rcases hshape with h | h | h | h | ⟨t, h⟩
  · subst h; exact ⟨rfl, rfl, Or.inl rfl⟩
  · subst h; exact ⟨rfl, rfl, Or.inr (Or.inl rfl)⟩
  · subst h; exact ⟨rfl, rfl, Or.inr (Or.inr (Or.inl rfl))⟩
  · subst h; exact ⟨rfl, rfl, Or.inr (Or.inr (Or.inr (Or.inl rfl)))⟩
  · subst h
    exact ⟨rfl, rfl, Or.inr (Or.inr (Or.inr (Or.inr ⟨t, by
      rw [← safeText_eq_sanitizeSpec]; rfl⟩)))⟩

/-- C4: when the body carries a non-empty string `RecordingUrl` `u`, the first
request of the handler is the recording fetch and its URL is `u` itself when
`u` ends with `.wav` and `u ++ ".wav"` otherwise; that URL ends with `.wav`,
ends with `.wav.wav` only if `u` did, and the suffix rule is idempotent. -/
theorem requested_url_suffix (w : World) (req : CallbackReq) (body : Obj) (u : Str)
    (hb : acquireBody w req = .ok body)
    (hu : getProp body "RecordingUrl".toList = .str u) (hne : u ≠ []) :
    (∃ auth rest, (processRecording w req).1 = .getRecording (audioUrl u) auth :: rest)
      ∧ audioUrl u = (if endsWith u ".wav".toList then u else u ++ ".wav".toList)
      ∧ endsWith (audioUrl u) ".wav".toList = true
      ∧ (endsWith (audioUrl u) ".wav.wav".toList = true
          → endsWith u ".wav.wav".toList = true)
      ∧ audioUrl (audioUrl u) = audioUrl u := by
  refine ⟨?_, rfl, audioUrl_endsWith u, audioUrl_no_double u, audioUrl_idem u⟩
  obtain ⟨rest, hrest⟩ := fetchStep_calls w u
  rw [processRecording_calls, tryBlock_of_recordingUrl w req body u hb hu hne]
  exact ⟨_, rest, hrest⟩

/-- Witness for `requested_url_suffix`: a raw form body whose `RecordingUrl`
has no `.wav` suffix. -/
theorem requested_url_suffix_witness :
    (∃ auth rest, (processRecording (exampleWorld examplePairs 200 .other) exampleReq).1
        = .getRecording (audioUrl "https://api.example/RE1".toList) auth :: rest)
      ∧ audioUrl "https://api.example/RE1".toList
        = (if endsWith "https://api.example/RE1".toList ".wav".toList
            then "https://api.example/RE1".toList
            else "https://api.example/RE1".toList ++ ".wav".toList)
      ∧ endsWith (audioUrl "https://api.example/RE1".toList) ".wav".toList = true
      ∧ (endsWith (audioUrl "https://api.example/RE1".toList) ".wav.wav".toList = true
          → endsWith "https://api.example/RE1".toList ".wav.wav".toList = true)
      ∧ audioUrl (audioUrl "https://api.example/RE1".toList)
        = audioUrl "https://api.example/RE1".toList :=
  requested_url_suffix (exampleWorld examplePairs 200 .other) exampleReq
    [("RecordingUrl".toList, .str "https://api.example/RE1".toList)]
    "https://api.example/RE1".toList rfl (by decide) (by decide)

/-- C5, as stated, fails: the recording is fetched and the transcription
service answers with status 200 and the JSON document `null`, which has no
`text` field. The rule of the claim gives the reply document built from the
fixed sentence "Sorry, I could not transcribe your message."; the handler
throws on reading `text` of `null` and answers with "Something went wrong.
Please try again later.". -/
theorem reply_null_json_went_wrong :
    (processRecording (exampleWorld examplePairs 200 .null) exampleReq).2
        = .ok { status := 200, contentType := some "text/xml".toList,
                body := sayDoc "Something went wrong. Please try again later.".toList }
      ∧ sayDoc "Something went wrong. Please try again later.".toList
        ≠ replyDoc (sanitizeSpec "Sorry, I could not transcribe your message.".toList) := by
  set_option maxRecDepth 100000 in
  exact ⟨rfl, by decide⟩

/-- C5, amended: when the recording fetch and the transcription succeed, the
transcription body parses as JSON to a value other than `null`, and its
`text` field is a string or is absent, the response is the document whose
single `Say voice="alice"` element reads
"Thank you. I heard: S. Your order has been recorded. Goodbye.", where `S`
is the text (the fixed sentence when the field is absent or empty) with every
`&` replaced by " and ", every `<` and `>` dropped and every other character
kept; `S` has no `&`, `<` or `>`. -/
theorem reply_on_success (w : World) (req : CallbackReq) (body : Obj) (u : Str)
    (audioResp openaiResp : FetchResp) (bytes : List Nat) (openaiJson : JsonDoc)
    (field : Option Str)
    (hb : acquireBody w req = .ok body)
    (hu : getProp body "RecordingUrl".toList = .str u) (hne : u ≠ [])
    (hf : w.fetchRecording (audioUrl u) (recordingAuthorization w.env) = .ok audioResp)
    (hok : audioResp.ok = true) (hbuf : audioResp.arrayBuffer = .ok bytes)
    (ht : w.fetchTranscription (bearerHeader w.env)
      (transcriptionForm bytes audioResp.contentType) = .ok openaiResp)
    (hok2 : openaiResp.ok = true) (hj : openaiResp.json = .ok openaiJson)
    (hfield : openaiJson.text = .ok (fieldValue field)) :
    (processRecording w req).2
        = .ok { status := 200, contentType := some "text/xml".toList,
                body := "<?xml version=\"1.0\" encoding=\"UTF-8\"?>\n<Response>\n  <Say voice=\"alice\">".toList
                  ++ ("Thank you. I heard: ".toList ++ sanitizeSpec (heardSpec field)
                    ++ ". Your order has been recorded. Goodbye.".toList)
                  ++ "</Say>\n</Response>".toList }
      ∧ (∀ c ∈ sanitizeSpec (heardSpec field), c ≠ '&' ∧ c ≠ '<' ∧ c ≠ '>') := by
  refine ⟨?_, sanitizeSpec_clean _⟩
  rw [processRecording_success w req body u audioResp openaiResp bytes openaiJson field
    hb hu hne hf hok hbuf ht hok2 hj hfield]
  rfl

/-- Witness for `reply_on_success`: the text "two pizzas please". -/
theorem reply_on_success_witness :
    (processRecording
        (exampleWorld examplePairs 200
          (.object [("text".toList, .str "two pizzas please".toList)])) exampleReq).2
        = .ok { status := 200, contentType := some "text/xml".toList,
                body := "<?xml version=\"1.0\" encoding=\"UTF-8\"?>\n<Response>\n  <Say voice=\"alice\">Thank you. I heard: two pizzas please. Your order has been recorded. Goodbye.</Say>\n</Response>".toList }
      ∧ (∀ c ∈ "two pizzas please".toList, c ≠ '&' ∧ c ≠ '<' ∧ c ≠ '>') :=
  reply_on_success
    (exampleWorld examplePairs 200
      (.object [("text".toList, .str "two pizzas please".toList)])) exampleReq
    [("RecordingUrl".toList, .str "https://api.example/RE1".toList)]
    "https://api.example/RE1".toList
    (plainResp 200 "RIFF".toList (.error .failure))
    (plainResp 200 "response body".toList
      (.ok (.object [("text".toList, .str "two pizzas please".toList)])))
    (utf8Encode "RIFF".toList)
    (.object [("text".toList, .str "two pizzas please".toList)])
    (some "two pizzas please".toList)
    rfl (by decide) (by decide) rfl (by decide) rfl rfl (by decide) rfl rfl

/-- C6, as stated, fails: with the text `<script>&</script>` the handler
answers with the line "I heard: script and /script." (the ampersand becomes
" and ", with its spaces), and the body does not contain
"I heard: scriptand/script.". -/
theorem script_text_keeps_spaces :
    (processRecording
        (exampleWorld examplePairs 200
          (.object [("text".toList, .str "<script>&</script>".toList)])) exampleReq).2
        = .ok (xmlResponse (replyDoc "script and /script".toList))
      ∧ ¬ ("I heard: scriptand/script.".toList
            <:+: replyDoc "script and /script".toList) := by
  set_option maxRecDepth 100000 in
  exact ⟨rfl, by decide⟩

/-- C6, amended: when the recording fetch and the transcription succeed and
the text is `<script>&</script>`, the response body is the reply document
whose line reads "Thank you. I heard: script and /script. Your order has been
recorded. Goodbye.". -/
theorem script_text_reply (w : World) (req : CallbackReq) (body : Obj) (u : Str)
    (audioResp openaiResp : FetchResp) (bytes : List Nat) (openaiJson : JsonDoc)
    (hb : acquireBody w req = .ok body)
    (hu : getProp body "RecordingUrl".toList = .str u) (hne : u ≠ [])
    (hf : w.fetchRecording (audioUrl u) (recordingAuthorization w.env) = .ok audioResp)
    (hok : audioResp.ok = true) (hbuf : audioResp.arrayBuffer = .ok bytes)
    (ht : w.fetchTranscription (bearerHeader w.env)
      (transcriptionForm bytes audioResp.contentType) = .ok openaiResp)
    (hok2 : openaiResp.ok = true) (hj : openaiResp.json = .ok openaiJson)
    (hfield : openaiJson.text = .ok (.str "<script>&</script>".toList)) :
    (processRecording w req).2
      = .ok { status := 200, contentType := some "text/xml".toList,
              body := "<?xml version=\"1.0\" encoding=\"UTF-8\"?>\n<Response>\n  <Say voice=\"alice\">Thank you. I heard: script and /script. Your order has been recorded. Goodbye.</Say>\n</Response>".toList } := by
  rw [processRecording_success w req body u audioResp openaiResp bytes openaiJson
    (some "<script>&</script>".toList) hb hu hne hf hok hbuf ht hok2 hj hfield]
  rfl

/-- Witness for `script_text_reply`: a form body read from the raw stream and
a transcription with the text `<script>&</script>`. -/
theorem script_text_reply_witness :
    (processRecording
        (exampleWorld examplePairs 200
          (.object [("text".toList, .str "<script>&</script>".toList)])) exampleReq).2
      = .ok { status := 200, contentType := some "text/xml".toList,
              body := "<?xml version=\"1.0\" encoding=\"UTF-8\"?>\n<Response>\n  <Say voice=\"alice\">Thank you. I heard: script and /script. Your order has been recorded. Goodbye.</Say>\n</Response>".toList } :=
  script_text_reply
    (exampleWorld examplePairs 200
      (.object [("text".toList, .str "<script>&</script>".toList)])) exampleReq
    [("RecordingUrl".toList, .str "https://api.example/RE1".toList)]
    "https://api.example/RE1".toList
    (plainResp 200 "RIFF".toList (.error .failure))
    (plainResp 200 "response body".toList
      (.ok (.object [("text".toList, .str "<script>&</script>".toList)])))
    (utf8Encode "RIFF".toList)
    (.object [("text".toList, .str "<script>&</script>".toList)])
    rfl (by decide) (by decide) rfl (by decide) rfl rfl (by decide) rfl rfl

/-- C7: when the body the handler ends up with (the parsed one, or the one
decoded from the raw stream) has no `RecordingUrl` or an empty one, the
response is status 200, `text/xml`, with the document whose `Say` reads
"Recording not found. Please try again.", and no outbound request is issued. -/
theorem recording_not_found (w : World) (req : CallbackReq) (body : Obj)
    (hb : acquireBody w req = .ok body)
    (hu : getProp body "RecordingUrl".toList = .undefined
      ∨ getProp body "RecordingUrl".toList = .str []) :
    processRecording w req
      = ([], .ok { status := 200, contentType := some "text/xml".toList,
                   body := "<?xml version=\"1.0\" encoding=\"UTF-8\"?><Response><Say>Recording not found. Please try again.</Say></Response>".toList }) := by
  have htry : tryBlock w req = ([], .ok (xmlResponse notFoundDoc)) := by
    unfold tryBlock
    rw [hb]
    rcases hu with h | h <;> simp only [h] <;> rfl
  rw [processRecording_of_tryBlock_ok w req _ _ htry]
  rfl

/-- Witness for `recording_not_found`: a raw form body that decodes to a
`CallSid` pair only. -/
theorem recording_not_found_witness :
    processRecording
        (exampleWorld [("CallSid".toList, "CA1".toList)] 200 .other)
        { body := .ok (some []), raw := .ok "CallSid=CA1".toList }
      = ([], .ok { status := 200, contentType := some "text/xml".toList,
                   body := "<?xml version=\"1.0\" encoding=\"UTF-8\"?><Response><Say>Recording not found. Please try again.</Say></Response>".toList }) :=
  recording_not_found
    (exampleWorld [("CallSid".toList, "CA1".toList)] 200 .other)
    { body := .ok (some []), raw := .ok "CallSid=CA1".toList }
    [("CallSid".toList, .str "CA1".toList)] rfl (Or.inl (by decide))

/-- C8, as stated, fails: the recording is fetched and the transcription
service answers with status 500, but reading the body of that response
rejects. The handler awaits the body text before it sends the fallback, so
the `catch` block answers with "Something went wrong. Please try again
later." and not with "Sorry, transcription failed.". -/
theorem transcription_unreadable_went_wrong :
    (processRecording
        (constWorld exampleEnv examplePairs
          (.ok (plainResp 200 "RIFF".toList (.error .failure)))
          (.ok (unreadableResp 500))) exampleReq).2
        = .ok { status := 200, contentType := some "text/xml".toList,
                body := sayDoc "Something went wrong. Please try again later.".toList }
      ∧ sayDoc "Something went wrong. Please try again later.".toList
        ≠ sayDoc "Sorry, transcription failed.".toList := by
  set_option maxRecDepth 100000 in
  exact ⟨rfl, by decide⟩

/-- C8, amended: when the recording fetch succeeds, the transcription service
answers with a status outside 200 to 299 and the body of that response can be
read, the response is status 200, `text/xml`, with the document whose `Say`
reads "Sorry, transcription failed.", whatever the text of the transcription
response body and whatever parsing it as JSON would give. -/
theorem transcription_failed (w : World) (req : CallbackReq) (body : Obj) (u : Str)
    (audioResp openaiResp : FetchResp) (bytes : List Nat) (errorBody : Str)
    (hb : acquireBody w req = .ok body)
    (hu : getProp body "RecordingUrl".toList = .str u) (hne : u ≠ [])
    (hf : w.fetchRecording (audioUrl u) (recordingAuthorization w.env) = .ok audioResp)
    (hok : audioResp.ok = true) (hbuf : audioResp.arrayBuffer = .ok bytes)
    (ht : w.fetchTranscription (bearerHeader w.env)
      (transcriptionForm bytes audioResp.contentType) = .ok openaiResp)
    (hstatus : ¬ (200 ≤ openaiResp.status ∧ openaiResp.status ≤ 299))
    (htext : openaiResp.text = .ok errorBody) :
    (processRecording w req).2
      = .ok { status := 200, contentType := some "text/xml".toList,
              body := "<?xml version=\"1.0\" encoding=\"UTF-8\"?><Response><Say>Sorry, transcription failed.</Say></Response>".toList } := by
  have hstep : transcriptionStep openaiResp = .ok (xmlResponse transcriptionFailedDoc) := by
    unfold transcriptionStep
    simp [FetchResp.ok, hstatus, htext]
  have htry := tryBlock_success w req body u audioResp openaiResp bytes hb hu hne hf hok hbuf ht
  rw [hstep] at htry
  rw [processRecording_of_tryBlock_ok w req _ _ htry]
  rfl

/-- Witness for `transcription_failed`: status 500 with a body that would
parse to a `text` field. -/
theorem transcription_failed_witness :
    (processRecording
        (exampleWorld examplePairs 500
          (.object [("text".toList, .str "two pizzas please".toList)])) exampleReq).2
      = .ok { status := 200, contentType := some "text/xml".toList,
              body := "<?xml version=\"1.0\" encoding=\"UTF-8\"?><Response><Say>Sorry, transcription failed.</Say></Response>".toList } :=
  transcription_failed
    (exampleWorld examplePairs 500
      (.object [("text".toList, .str "two pizzas please".toList)])) exampleReq
    [("RecordingUrl".toList, .str "https://api.example/RE1".toList)]
    "https://api.example/RE1".toList
    (plainResp 200 "RIFF".toList (.error .failure))
    (plainResp 500 "response body".toList
      (.ok (.object [("text".toList, .str "two pizzas please".toList)])))
    (utf8Encode "RIFF".toList) "response body".toList
    rfl (by decide) (by decide) rfl (by decide) rfl rfl (by decide) rfl

/-- C9: every recording fetch the handler issues carries an `Authorization`
header if and only if both the account identifier and the token are present
and non-empty, and then the header is "Basic " followed by the base64
encoding of `sid ++ ":" ++ tok`. -/
theorem recording_authorization_header (w : World) (req : CallbackReq) (url : Str)
    (auth : Option Str)
    (h : Outbound.getRecording url auth ∈ (processRecording w req).1) :
    (auth ≠ none ↔
        ∃ sid tok, w.env.twilioAccountSid = some sid ∧ w.env.twilioAuthToken = some tok
          ∧ sid ≠ [] ∧ tok ≠ [])
      ∧ (∀ sid tok, w.env.twilioAccountSid = some sid → w.env.twilioAuthToken = some tok
          → sid ≠ [] → tok ≠ []
          → auth = some ("Basic ".toList
              ++ base64 (utf8Encode (sid ++ ":".toList ++ tok)))) := by
  have hauth := getRecording_mem w req url auth h
  rw [recordingAuthorization_eq] at hauth
  subst hauth
  rcases hs : w.env.twilioAccountSid with _ | _ | ⟨a, sid⟩ <;>
    rcases htk : w.env.twilioAuthToken with _ | _ | ⟨b, tok⟩ <;> simp

/-- Witness for `recording_authorization_header`: the credentials `AC1` and
`tok` give the header `Basic QUMxOnRvaw==`. -/
theorem recording_authorization_header_witness :
    (some "Basic QUMxOnRvaw==".toList ≠ none ↔
        ∃ sid tok, exampleEnv.twilioAccountSid = some sid
          ∧ exampleEnv.twilioAuthToken = some tok ∧ sid ≠ [] ∧ tok ≠ [])
      ∧ (∀ sid tok, exampleEnv.twilioAccountSid = some sid
          → exampleEnv.twilioAuthToken = some tok → sid ≠ [] → tok ≠ []
          → some "Basic QUMxOnRvaw==".toList = some ("Basic ".toList
              ++ base64 (utf8Encode (sid ++ ":".toList ++ tok)))) :=
  recording_authorization_header (exampleWorld examplePairs 200 .other) exampleReq
    "https://api.example/RE1.wav".toList (some "Basic QUMxOnRvaw==".toList) (by decide)

end ServerTest
